import Mathlib

/-!
Verification of the data-skipping predicate engine of delta-kernel-rs
(`kernel/src/scan/data_skipping.rs`).

The expression model, operator algebra and schema types live outside the
provided sources (only their callers are in `data_skipping.rs`), so they are
modelled from the specification; the rewriter `as_data_skipping_predicate`,
its inverted companion and `DataSkippingFilter::new` are translated directly
from the source.
-/

namespace DataSkipping

/-- Modelled from the spec: primitive column types of the schema layer
(the kernel's `PrimitiveType`, not under `src/`); only `Long` and `Boolean`
are distinguished by the claims, the rest witness genericity. -/
inductive PrimitiveType where
  | long
  | boolean
  | integer
  | string
  | double
  deriving DecidableEq, Repr

/-- Modelled from the spec: a typed scalar literal (`Literal(value)` of §3;
the kernel's `Scalar` is not under `src/`). -/
inductive Scalar where
  | int : Int → Scalar
  | bool : Bool → Scalar
  | str : String → Scalar
  deriving DecidableEq, Repr

/-- Modelled from the spec: `op ∈ {Not, IsNull}` (§3); the kernel's
`UnaryOperator` is not under `src/`. -/
inductive UnaryOperator where
  | not
  | isNull
  deriving DecidableEq, Repr

/-- Modelled from the spec: `op ∈ {Lt, Le, Gt, Ge, Eq, Ne, Distinct, …}`
(§3); `plus` represents the elided non-comparison operators. The kernel's
`BinaryOperator` is not under `src/`. -/
inductive BinaryOperator where
  | lessThan
  | lessThanOrEqual
  | greaterThan
  | greaterThanOrEqual
  | equal
  | notEqual
  | distinct
  | plus
  deriving DecidableEq, Repr

/-- Modelled from the spec: `op ∈ {And, Or}` (§3). -/
inductive VariadicOperator where
  | and
  | or
  deriving DecidableEq, Repr

/-- Modelled from the spec: `commute(op)`, the operator obtained by swapping
operands (`Lt ↔ Gt`, `Le ↔ Ge`, `Eq`/`Ne`/`Distinct` self-commute), undefined
for non-comparisons (§3 operator algebra). -/
def BinaryOperator.commute : BinaryOperator → Option BinaryOperator
  | .lessThan => some .greaterThan
  | .greaterThan => some .lessThan
  | .lessThanOrEqual => some .greaterThanOrEqual
  | .greaterThanOrEqual => some .lessThanOrEqual
  | .equal => some .equal
  | .notEqual => some .notEqual
  | .distinct => some .distinct
  | .plus => none

/-- Modelled from the spec: `invert(op)` with `a op b ≡ ¬(a invert(op) b)`
(`Lt ↔ Ge`, `Le ↔ Gt`, `Eq ↔ Ne`), undefined otherwise (§3 operator
algebra). -/
def BinaryOperator.invert : BinaryOperator → Option BinaryOperator
  | .lessThan => some .greaterThanOrEqual
  | .greaterThanOrEqual => some .lessThan
  | .lessThanOrEqual => some .greaterThan
  | .greaterThan => some .lessThanOrEqual
  | .equal => some .notEqual
  | .notEqual => some .equal
  | .distinct => none
  | .plus => none

/-- Modelled from the spec: variadic operators invert via De Morgan
(`And ↔ Or`). -/
def VariadicOperator.invert : VariadicOperator → VariadicOperator
  | .and => .or
  | .or => .and

/-- Modelled from the spec: the expression tree `Expr` with its five shapes
(§3); a column is a sequence of name segments. The kernel's `Expression` is
not under `src/`. -/
inductive Expr where
  | column : List String → Expr
  | literal : Scalar → Expr
  | unaryOperation : UnaryOperator → Expr → Expr
  | binaryOperation : BinaryOperator → Expr → Expr → Expr
  | variadicOperation : VariadicOperator → List Expr → Expr

/-- Modelled from the spec: constructor helper `Expr::binary`. -/
def Expr.binary (op : BinaryOperator) (l r : Expr) : Expr := .binaryOperation op l r

/-- Modelled from the spec: constructor helper `Expr::unary`. -/
def Expr.unary (op : UnaryOperator) (e : Expr) : Expr := .unaryOperation op e

/-- Modelled from the spec: constructor helper `Expr::variadic`. -/
def Expr.variadic (op : VariadicOperator) (es : List Expr) : Expr :=
  .variadicOperation op es

/-- Modelled from the spec: `Expr::and_from`, the variadic conjunction of a
list of expressions. -/
def Expr.and_from (es : List Expr) : Expr := .variadicOperation .and es

/-- Modelled from the spec: `Expr::or_from`, the variadic disjunction of a
list of expressions. -/
def Expr.or_from (es : List Expr) : Expr := .variadicOperation .or es

/-- Modelled from the spec: `Expr::and`, a two-element variadic `And`. -/
def Expr.and (a b : Expr) : Expr := .variadicOperation .and [a, b]

/-- Modelled from the spec: `Expr::or`, a two-element variadic `Or`. -/
def Expr.or (a b : Expr) : Expr := .variadicOperation .or [a, b]

/-- Modelled from the spec: comparison helper `Expr::lt`. -/
def Expr.lt (a b : Expr) : Expr := .binaryOperation .lessThan a b

/-- Modelled from the spec: comparison helper `Expr::le`. -/
def Expr.le (a b : Expr) : Expr := .binaryOperation .lessThanOrEqual a b

/-- Modelled from the spec: comparison helper `Expr::gt`. -/
def Expr.gt (a b : Expr) : Expr := .binaryOperation .greaterThan a b

/-- Modelled from the spec: comparison helper `Expr::ge`. -/
def Expr.ge (a b : Expr) : Expr := .binaryOperation .greaterThanOrEqual a b

/-- Modelled from the spec: comparison helper `Expr::eq`. -/
def Expr.eq (a b : Expr) : Expr := .binaryOperation .equal a b

/-- Modelled from the spec: comparison helper `Expr::ne`. -/
def Expr.ne (a b : Expr) : Expr := .binaryOperation .notEqual a b

/-- Modelled from the spec: `Expr::distinct`, the two-valued-safe inequality
primitive. -/
def Expr.distinct (a b : Expr) : Expr := .binaryOperation .distinct a b

/-- Modelled from the spec: the `!e` operator on expressions, wrapping in a
unary `Not`. -/
def Expr.not (e : Expr) : Expr := .unaryOperation .not e

/-- Weight of a binary operator for the termination measure: `Eq`/`Ne` are
heavy because the rewriter re-expands an equality into a conjunction of two
fresh comparisons. -/
def opW : BinaryOperator → Nat
  | .equal => 8
  | .notEqual => 8
  | _ => 1

mutual
/-- Termination measure for `as_data_skipping_predicate`. -/
def skSize : Expr → Nat
  | .column _ => 1
  | .literal _ => 1
  | .unaryOperation .not e => 1 + skSizeInv e
  | .unaryOperation .isNull _ => 1
  | .binaryOperation op l r => 1 + opW op + skSize l + skSize r
  | .variadicOperation _ es => 1 + skSizeList es

/-- Termination measure for `as_inverted_data_skipping_predicate`. -/
def skSizeInv : Expr → Nat
  | .column _ => 1
  | .literal _ => 1
  | .unaryOperation .not e => 1 + skSize e
  | .unaryOperation .isNull _ => 1
  | .binaryOperation op l r => 2 + opW op + skSize l + skSize r
  | .variadicOperation _ es => 2 + skSizeInvList es

/-- Sum of `skSize` over a child list. -/
def skSizeList : List Expr → Nat
  | [] => 0
  | e :: es => skSize e + skSizeList es

/-- Sum of `1 + skSizeInv` over a child list. -/
def skSizeInvList : List Expr → Nat
  | [] => 0
  | e :: es => 1 + skSizeInv e + skSizeInvList es
end

theorem mem_le_skSizeList {e : Expr} {es : List Expr} (h : e ∈ es) :
    skSize e ≤ skSizeList es := by
  induction es with
  | nil => cases h
  | cons x xs ih =>
    rcases List.mem_cons.mp h with h' | h'
    · subst h'; simp [skSizeList]
    · have := ih h'
      simp [skSizeList]
      omega

theorem skSizeList_map_not (es : List Expr) :
    skSizeList (es.map Expr.not) = skSizeInvList es := by
  induction es with
  | nil => rfl
  | cons e es ih => simp [skSizeList, skSizeInvList, Expr.not, skSize, ih]

theorem commute_opW {op op2 : BinaryOperator} (h : op.commute = some op2) :
    opW op2 = opW op := by
  cases op <;> simp [BinaryOperator.commute] at h <;> subst h <;> rfl

theorem invert_opW {op op2 : BinaryOperator} (h : op.invert = some op2) :
    opW op2 = opW op := by
  cases op <;> simp [BinaryOperator.invert] at h <;> subst h <;> rfl

/-- Sequence a list of options: `some` of the values when all are `some`,
otherwise `none` (the behaviour of `collect::<Option<Vec<_>>>()`). -/
def optionAll {α : Type} : List (Option α) → Option (List α)
  | [] => some []
  | none :: _ => none
  | some a :: rest => (optionAll rest).map (fun l => a :: l)

/-- From `data_skipping.rs`: `get_tight_null_expr`; a column can contain null
when `tightBounds` is distinct from `FALSE` and `nullCount > 0`. -/
def get_tight_null_expr (null_col : Expr) : Expr :=
  Expr.and (Expr.distinct (.column ["tightBounds"]) (.literal (.bool false)))
    (Expr.gt null_col (.literal (.int 0)))

/-- From `data_skipping.rs`: `get_wide_null_expr`; with wide bounds the whole
column must be null, `tightBounds = FALSE` and `numRecords = nullCount`. -/
def get_wide_null_expr (null_col : Expr) : Expr :=
  Expr.and (Expr.eq (.column ["tightBounds"]) (.literal (.bool false)))
    (Expr.eq (.column ["numRecords"]) null_col)

/-- From `data_skipping.rs`: `get_tight_not_null_expr`; a column has a
non-null record when `tightBounds` is distinct from `FALSE` and
`nullCount < numRecords`. -/
def get_tight_not_null_expr (null_col : Expr) : Expr :=
  Expr.and (Expr.distinct (.column ["tightBounds"]) (.literal (.bool false)))
    (Expr.lt null_col (.column ["numRecords"]))

/-- From `data_skipping.rs`: `get_wide_not_null_expr`; with wide bounds, a
non-null is possible when `tightBounds = FALSE` and
`numRecords ≠ nullCount`. -/
def get_wide_not_null_expr (null_col : Expr) : Expr :=
  Expr.and (Expr.eq (.column ["tightBounds"]) (.literal (.bool false)))
    (Expr.ne (.column ["numRecords"]) null_col)

mutual
/-- From `data_skipping.rs`: the body of `as_data_skipping_predicate` for a
binary operation once normalized to `(op, column, literal)`; `Lt`/`Le` map to
`minValues`, `Gt`/`Ge` to `maxValues`, `Eq` re-enters the rewriter on
`And(col ≤ lit, lit ≤ col)`, `Ne` produces
`Or(minValues.col > lit, maxValues.col < lit)`, anything else is `none`. -/
def data_skipping_col_lit : BinaryOperator → List String → Scalar → Option Expr
  | .lessThan, col, val =>
      some (.binaryOperation .lessThan (.column ("minValues" :: col)) (.literal val))
  | .lessThanOrEqual, col, val =>
      some (.binaryOperation .lessThanOrEqual (.column ("minValues" :: col)) (.literal val))
  | .greaterThan, col, val =>
      some (.binaryOperation .greaterThan (.column ("maxValues" :: col)) (.literal val))
  | .greaterThanOrEqual, col, val =>
      some (.binaryOperation .greaterThanOrEqual (.column ("maxValues" :: col)) (.literal val))
  | .equal, col, val =>
      as_data_skipping_predicate
        (Expr.and (Expr.le (.column col) (.literal val))
          (Expr.le (.literal val) (.column col)))
  | .notEqual, col, val =>
      some (Expr.or (Expr.gt (.column ("minValues" :: col)) (.literal val))
        (Expr.lt (.column ("maxValues" :: col)) (.literal val)))
  | _, _, _ => none
termination_by op _ _ => opW op + 2
decreasing_by
  simp [Expr.and, Expr.le, skSize, skSizeList, opW]

/-- From `data_skipping.rs`: `as_inverted_data_skipping_predicate`, pushing a
`Not` down the tree via De Morgan's laws. -/
def as_inverted_data_skipping_predicate : Expr → Option Expr
  | .unaryOperation .not e => as_data_skipping_predicate e
  | .unaryOperation .isNull e =>
      match e with
      | .column col =>
          some (Expr.or (get_tight_not_null_expr (.column ("nullCount" :: col)))
            (get_wide_not_null_expr (.column ("nullCount" :: col))))
      | _ => none
  | .binaryOperation op l r =>
      match h : op.invert with
      | some op2 => as_data_skipping_predicate (.binaryOperation op2 l r)
      | none => none
  | .variadicOperation op es =>
      as_data_skipping_predicate (.variadicOperation op.invert (es.map Expr.not))
  | _ => none
termination_by e => skSizeInv e
decreasing_by
  · simp [skSize, skSizeInv]
  · have := invert_opW h
    simp [skSize, skSizeInv]
    omega
  · simp [skSize, skSizeInv, skSizeList_map_not]

/-- From `data_skipping.rs`: `as_data_skipping_predicate`, rewriting a
predicate over table columns into a predicate over the per-file statistics
record, or `none` when ineligible. -/
def as_data_skipping_predicate : Expr → Option Expr
  | .binaryOperation op left right =>
      match left, right with
      | .column col, .literal val => data_skipping_col_lit op col val
      | .literal val, .column col =>
          match h : op.commute with
          | some op2 => data_skipping_col_lit op2 col val
          | none => none
      | _, _ => none
  | .unaryOperation .not e => as_inverted_data_skipping_predicate e
  | .unaryOperation .isNull e =>
      match e with
      | .column col =>
          some (Expr.or (get_tight_null_expr (.column ("nullCount" :: col)))
            (get_wide_null_expr (.column ("nullCount" :: col))))
      | _ => none
  | .variadicOperation vop es =>
      match vop with
      | .and =>
          some (Expr.and_from
            (List.reduceOption (es.attach.map (fun x => as_data_skipping_predicate x.1))))
      | .or =>
          (optionAll (es.attach.map (fun x => as_data_skipping_predicate x.1))).map
            Expr.or_from
  | _ => none
termination_by e => skSize e
decreasing_by
  · simp [skSize]
  · have := commute_opW h
    simp [skSize]
    omega
  · simp [skSize, skSizeInv]
  · have := mem_le_skSizeList x.2
    simp [skSize]
    omega
  · have := mem_le_skSizeList x.2
    simp [skSize]
    omega
end

theorem optionAll_map_some {α : Type} (rs : List α) :
    optionAll (rs.map some) = some rs := by
  induction rs with
  | nil => rfl
  | cons a rest ih => simp [optionAll, ih]

theorem optionAll_of_mem_none {α : Type} {l : List (Option α)} (h : none ∈ l) :
    optionAll l = none := by
  induction l with
  | nil => cases h
  | cons x xs ih =>
    cases x with
    | none => rfl
    | some a =>
      rcases List.mem_cons.mp h with h' | h'
      · cases h'
      · simp [optionAll, ih h']

theorem commute_commute {op op2 : BinaryOperator} (h : op.commute = some op2) :
    op2.commute = some op := by
  cases op <;> simp [BinaryOperator.commute] at h <;> subst h <;> rfl

/-- Unfolding of the rewriter on a variadic `And`: children are rewritten and
the `none` results are discarded. -/
theorem adsp_and (es : List Expr) :
    as_data_skipping_predicate (.variadicOperation .and es)
      = some (Expr.and_from (List.reduceOption (es.map as_data_skipping_predicate))) := by
  simp [as_data_skipping_predicate, List.attach_map_val]

/-- Unfolding of the rewriter on a variadic `Or`: the rewritten children are
collected, any `none` child poisoning the whole result. -/
theorem adsp_or (es : List Expr) :
    as_data_skipping_predicate (.variadicOperation .or es)
      = (optionAll (es.map as_data_skipping_predicate)).map Expr.or_from := by
  simp [as_data_skipping_predicate, List.attach_map_val]

/-- C2 counterexample: the zero-child `And` rewrites to `some (And [])`, not
`none`, and dropping an ineligible conjunct yields a singleton conjunction,
not the bare rewritten survivor. -/
theorem claim_C2_counterexample :
    as_data_skipping_predicate (.variadicOperation .and []) ≠ none ∧
    as_data_skipping_predicate (.column ["u"]) = none ∧
    as_data_skipping_predicate
        (.variadicOperation .and
          [.binaryOperation .lessThan (.column ["a"]) (.literal (.int 0)),
           .column ["u"]])
      ≠ as_data_skipping_predicate
          (.binaryOperation .lessThan (.column ["a"]) (.literal (.int 0))) := by
  refine ⟨?_, ?_, ?_⟩ <;>
    simp [as_data_skipping_predicate, data_skipping_col_lit, Expr.and_from,
      List.attach_map_val]

/-- C2 amended: on a variadic `And` the rewriter always returns `some` of the
conjunction of the surviving rewritten children; dropping a `none` child from
a two-child `And` leaves a singleton conjunction `And [rewrite(E)]`, and with
no survivors the result is `some (And [])` (identically TRUE), never `none`. -/
theorem claim_C2_and_drop :
    (∀ es : List Expr,
      as_data_skipping_predicate (.variadicOperation .and es)
        = some (.variadicOperation .and
            (List.reduceOption (es.map as_data_skipping_predicate)))) ∧
    (∀ E U r : Expr, as_data_skipping_predicate U = none →
      as_data_skipping_predicate E = some r →
      as_data_skipping_predicate (.variadicOperation .and [E, U])
        = some (.variadicOperation .and [r])) ∧
    as_data_skipping_predicate (.variadicOperation .and [])
      = some (.variadicOperation .and []) := by
  refine ⟨fun es => adsp_and es, fun E U r hU hE => ?_, adsp_and []⟩
  rw [adsp_and]
  simp [hU, hE, Expr.and_from]

theorem claim_C2_witness :
    as_data_skipping_predicate
        (.variadicOperation .and
          [.binaryOperation .lessThan (.column ["a"]) (.literal (.int 0)),
           .column ["u"]])
      = some (.variadicOperation .and
          [.binaryOperation .lessThan (.column ["minValues", "a"]) (.literal (.int 0))]) :=
  claim_C2_and_drop.2.1 _ _ _
    (by simp [as_data_skipping_predicate])
    (by simp [as_data_skipping_predicate, data_skipping_col_lit])

/-- C3: the rewrite of every binary comparison between a column and a
literal: `Lt`/`Le` against `minValues`, `Gt`/`Ge` against `maxValues`, `Eq`
as the conjunction `minValues.col ≤ lit ∧ maxValues.col ≥ lit`, `Ne` as the
disjunction `minValues.col > lit ∨ maxValues.col < lit`; every other binary
operator, and every binary operation whose operands are not one column and
one literal, rewrites to `none`. -/
theorem claim_C3_binary_rewrite :
    (∀ (col : List String) (val : Scalar),
      as_data_skipping_predicate (.binaryOperation .lessThan (.column col) (.literal val))
        = some (.binaryOperation .lessThan (.column ("minValues" :: col)) (.literal val))) ∧
    (∀ (col : List String) (val : Scalar),
      as_data_skipping_predicate
          (.binaryOperation .lessThanOrEqual (.column col) (.literal val))
        = some (.binaryOperation .lessThanOrEqual (.column ("minValues" :: col))
            (.literal val))) ∧
    (∀ (col : List String) (val : Scalar),
      as_data_skipping_predicate (.binaryOperation .greaterThan (.column col) (.literal val))
        = some (.binaryOperation .greaterThan (.column ("maxValues" :: col)) (.literal val))) ∧
    (∀ (col : List String) (val : Scalar),
      as_data_skipping_predicate
          (.binaryOperation .greaterThanOrEqual (.column col) (.literal val))
        = some (.binaryOperation .greaterThanOrEqual (.column ("maxValues" :: col))
            (.literal val))) ∧
    (∀ (col : List String) (val : Scalar),
      as_data_skipping_predicate (.binaryOperation .equal (.column col) (.literal val))
        = some (.variadicOperation .and
            [.binaryOperation .lessThanOrEqual (.column ("minValues" :: col)) (.literal val),
             .binaryOperation .greaterThanOrEqual (.column ("maxValues" :: col))
               (.literal val)])) ∧
    (∀ (col : List String) (val : Scalar),
      as_data_skipping_predicate (.binaryOperation .notEqual (.column col) (.literal val))
        = some (.variadicOperation .or
            [.binaryOperation .greaterThan (.column ("minValues" :: col)) (.literal val),
             .binaryOperation .lessThan (.column ("maxValues" :: col)) (.literal val)])) ∧
    (∀ (col : List String) (val : Scalar),
      as_data_skipping_predicate (.binaryOperation .distinct (.column col) (.literal val))
        = none) ∧
    (∀ (col : List String) (val : Scalar),
      as_data_skipping_predicate (.binaryOperation .plus (.column col) (.literal val))
        = none) ∧
    (∀ (op : BinaryOperator) (l r : Expr),
      ((∀ c, l ≠ .column c) ∨ (∀ v, r ≠ .literal v)) →
      ((∀ v, l ≠ .literal v) ∨ (∀ c, r ≠ .column c)) →
      as_data_skipping_predicate (.binaryOperation op l r) = none) := by
  refine ⟨?_, ?_, ?_, ?_, ?_, ?_, ?_, ?_, ?_⟩
  · intro col val; simp [as_data_skipping_predicate, data_skipping_col_lit]
  · intro col val; simp [as_data_skipping_predicate, data_skipping_col_lit]
  · intro col val; simp [as_data_skipping_predicate, data_skipping_col_lit]
  · intro col val; simp [as_data_skipping_predicate, data_skipping_col_lit]
  · intro col val
    simp [as_data_skipping_predicate, data_skipping_col_lit, Expr.and, Expr.le,
      Expr.and_from, BinaryOperator.commute, List.attach_map_val]
  · intro col val
    simp [as_data_skipping_predicate, data_skipping_col_lit, Expr.or, Expr.gt, Expr.lt]
  · intro col val; simp [as_data_skipping_predicate, data_skipping_col_lit]
  · intro col val; simp [as_data_skipping_predicate, data_skipping_col_lit]
  · intro op l r h1 h2
    cases l with
    | column c =>
      cases r with
      | literal v =>
        rcases h1 with h | h
        · exact absurd rfl (h c)
        · exact absurd rfl (h v)
      | column c' => simp [as_data_skipping_predicate]
      | unaryOperation u e => simp [as_data_skipping_predicate]
      | binaryOperation b x y => simp [as_data_skipping_predicate]
      | variadicOperation vo es => simp [as_data_skipping_predicate]
    | literal v =>
      cases r with
      | column c =>
        rcases h2 with h | h
        · exact absurd rfl (h v)
        · exact absurd rfl (h c)
      | literal v' => simp [as_data_skipping_predicate]
      | unaryOperation u e => simp [as_data_skipping_predicate]
      | binaryOperation b x y => simp [as_data_skipping_predicate]
      | variadicOperation vo es => simp [as_data_skipping_predicate]
    | unaryOperation u e => simp [as_data_skipping_predicate]
    | binaryOperation b x y => simp [as_data_skipping_predicate]
    | variadicOperation vo es => simp [as_data_skipping_predicate]

theorem claim_C3_witness :
    as_data_skipping_predicate
        (.binaryOperation .plus (.column ["a"]) (.column ["b"])) = none :=
  claim_C3_binary_rewrite.2.2.2.2.2.2.2.2 .plus _ _
    (Or.inr fun v h => nomatch h) (Or.inl fun v h => nomatch h)

/-- C4: a variadic `Or` rewrites to `none` as soon as one child rewrites to
`none`, and otherwise to the disjunction of the rewritten children. -/
theorem claim_C4_or_poison :
    (∀ es : List Expr, (∃ u ∈ es, as_data_skipping_predicate u = none) →
      as_data_skipping_predicate (.variadicOperation .or es) = none) ∧
    (∀ es rs : List Expr, es.map as_data_skipping_predicate = rs.map some →
      as_data_skipping_predicate (.variadicOperation .or es)
        = some (.variadicOperation .or rs)) := by
  constructor
  · intro es ⟨u, hu, hnone⟩
    rw [adsp_or]
    have : (none : Option Expr) ∈ es.map as_data_skipping_predicate := by
      rw [← hnone]; exact List.mem_map_of_mem _ hu
    rw [optionAll_of_mem_none this]
    rfl
  · intro es rs h
    rw [adsp_or, h, optionAll_map_some]
    rfl

theorem claim_C4_witness :
    as_data_skipping_predicate (.variadicOperation .or [.column ["u"]]) = none ∧
    as_data_skipping_predicate
        (.variadicOperation .or
          [.binaryOperation .lessThan (.column ["a"]) (.literal (.int 1))])
      = some (.variadicOperation .or
          [.binaryOperation .lessThan (.column ["minValues", "a"]) (.literal (.int 1))]) :=
  ⟨claim_C4_or_poison.1 _ ⟨.column ["u"], List.mem_singleton_self _,
      by simp [as_data_skipping_predicate]⟩,
   claim_C4_or_poison.2 _ _
      (by simp [as_data_skipping_predicate, data_skipping_col_lit])⟩

/-- C5: `IsNull` of a bare column rewrites to the disjunction of the tight
branch `Distinct(tightBounds, FALSE) ∧ nullCount.c > 0` and the wide branch
`tightBounds = FALSE ∧ numRecords = nullCount.c`; `IsNull` of anything other
than a bare column rewrites to `none`. -/
theorem claim_C5_isnull :
    (∀ col : List String,
      as_data_skipping_predicate (.unaryOperation .isNull (.column col))
        = some (.variadicOperation .or
            [.variadicOperation .and
              [.binaryOperation .distinct (.column ["tightBounds"]) (.literal (.bool false)),
               .binaryOperation .greaterThan (.column ("nullCount" :: col))
                 (.literal (.int 0))],
             .variadicOperation .and
              [.binaryOperation .equal (.column ["tightBounds"]) (.literal (.bool false)),
               .binaryOperation .equal (.column ["numRecords"])
                 (.column ("nullCount" :: col))]])) ∧
    (∀ e : Expr, (∀ c, e ≠ .column c) →
      as_data_skipping_predicate (.unaryOperation .isNull e) = none) := by
  constructor
  · intro col
    simp [as_data_skipping_predicate, get_tight_null_expr, get_wide_null_expr,
      Expr.or, Expr.and, Expr.distinct, Expr.gt, Expr.eq]
  · intro e h
    cases e with
    | column c => exact absurd rfl (h c)
    | literal v => simp [as_data_skipping_predicate]
    | unaryOperation u x => simp [as_data_skipping_predicate]
    | binaryOperation b x y => simp [as_data_skipping_predicate]
    | variadicOperation vo es => simp [as_data_skipping_predicate]

theorem claim_C5_witness :
    as_data_skipping_predicate (.unaryOperation .isNull (.literal (.int 0))) = none :=
  claim_C5_isnull.2 _ (fun c h => nomatch h)

/-- C6: `Not(IsNull(c))` for a bare column rewrites to the disjunction of the
tight branch `Distinct(tightBounds, FALSE) ∧ nullCount.c < numRecords` and the
wide branch `tightBounds = FALSE ∧ numRecords ≠ nullCount.c`; `Not(IsNull(e))`
for any other `e` rewrites to `none`. -/
theorem claim_C6_not_isnull :
    (∀ col : List String,
      as_data_skipping_predicate
          (.unaryOperation .not (.unaryOperation .isNull (.column col)))
        = some (.variadicOperation .or
            [.variadicOperation .and
              [.binaryOperation .distinct (.column ["tightBounds"]) (.literal (.bool false)),
               .binaryOperation .lessThan (.column ("nullCount" :: col))
                 (.column ["numRecords"])],
             .variadicOperation .and
              [.binaryOperation .equal (.column ["tightBounds"]) (.literal (.bool false)),
               .binaryOperation .notEqual (.column ["numRecords"])
                 (.column ("nullCount" :: col))]])) ∧
    (∀ e : Expr, (∀ c, e ≠ .column c) →
      as_data_skipping_predicate
          (.unaryOperation .not (.unaryOperation .isNull e)) = none) := by
  constructor
  · intro col
    simp [as_data_skipping_predicate, as_inverted_data_skipping_predicate,
      get_tight_not_null_expr, get_wide_not_null_expr, Expr.or, Expr.and,
      Expr.distinct, Expr.lt, Expr.ne, Expr.eq]
  · intro e h
    cases e with
    | column c => exact absurd rfl (h c)
    | literal v => simp [as_data_skipping_predicate, as_inverted_data_skipping_predicate]
    | unaryOperation u x =>
      simp [as_data_skipping_predicate, as_inverted_data_skipping_predicate]
    | binaryOperation b x y =>
      simp [as_data_skipping_predicate, as_inverted_data_skipping_predicate]
    | variadicOperation vo es =>
      simp [as_data_skipping_predicate, as_inverted_data_skipping_predicate]

theorem claim_C6_witness :
    as_data_skipping_predicate
        (.unaryOperation .not (.unaryOperation .isNull (.literal (.int 0)))) = none :=
  claim_C6_not_isnull.2 _ (fun c h => nomatch h)

/-- C7: for every comparison with a defined commute, rewriting
`op(col, lit)` and rewriting `commute(op)(lit, col)` agree; with operands
`(literal, column)` and no defined commute the rewrite is `none`. -/
theorem claim_C7_commutation :
    (∀ (op op2 : BinaryOperator) (col : List String) (val : Scalar),
      op.commute = some op2 →
      as_data_skipping_predicate (.binaryOperation op (.column col) (.literal val))
        = as_data_skipping_predicate (.binaryOperation op2 (.literal val) (.column col))) ∧
    (∀ (op : BinaryOperator) (col : List String) (val : Scalar),
      op.commute = none →
      as_data_skipping_predicate (.binaryOperation op (.literal val) (.column col))
        = none) := by
  constructor
  · intro op op2 col val h
    have h2 := commute_commute h
    simp only [as_data_skipping_predicate]
    split
    · rename_i op3 heq
      rw [h2] at heq
      cases heq
      rfl
    · rename_i heq
      rw [h2] at heq
      cases heq
  · intro op col val h
    simp only [as_data_skipping_predicate]
    split
    · rename_i op3 heq
      rw [h] at heq
      cases heq
    · rfl

theorem claim_C7_witness :
    as_data_skipping_predicate
        (.binaryOperation .lessThan (.column ["a"]) (.literal (.int 5)))
      = as_data_skipping_predicate
          (.binaryOperation .greaterThan (.literal (.int 5)) (.column ["a"])) ∧
    as_data_skipping_predicate
        (.binaryOperation .plus (.literal (.int 5)) (.column ["a"])) = none :=
  ⟨claim_C7_commutation.1 .lessThan .greaterThan ["a"] (.int 5) rfl,
   claim_C7_commutation.2 .plus ["a"] (.int 5) rfl⟩

/-- Modelled from the spec: SQL three-valued truth values
(TRUE / FALSE / NULL-unknown, §1 and §9). -/
inductive TV where
  | t
  | f
  | u
  deriving DecidableEq, Repr

/-- Three-valued conjunction. -/
def tvAnd : TV → TV → TV
  | .f, _ => .f
  | _, .f => .f
  | .t, .t => .t
  | _, _ => .u

/-- Three-valued disjunction. -/
def tvOr : TV → TV → TV
  | .t, _ => .t
  | _, .t => .t
  | .f, .f => .f
  | _, _ => .u

/-- Read a nullable scalar as a truth value: non-boolean or missing values
count as unknown. -/
def toTV : Option Scalar → TV
  | some (.bool true) => .t
  | some (.bool false) => .f
  | _ => .u

/-- Render a truth value back as a nullable boolean scalar. -/
def ofTV : TV → Option Scalar
  | .t => some (.bool true)
  | .f => some (.bool false)
  | .u => none

/-- Modelled from the spec: comparison of two scalars of the same kind;
cross-kind comparisons are undefined (type mismatch yields unknown, §4.C
tie-breaks). -/
def scalarCmp : Scalar → Scalar → Option Ordering
  | .int a, .int b => some (compare a b)
  | .bool a, .bool b => some (compare a b)
  | .str a, .str b => some (compare a b)
  | _, _ => none

/-- Does an ordering outcome satisfy a comparison operator? -/
def cmpSat : BinaryOperator → Ordering → Bool
  | .lessThan, o => o = .lt
  | .lessThanOrEqual, o => o ≠ .gt
  | .greaterThan, o => o = .gt
  | .greaterThanOrEqual, o => o ≠ .lt
  | .equal, o => o = .eq
  | .notEqual, o => o ≠ .eq
  | _, _ => false

/-- Modelled from the spec: SQL semantics of a binary operator on nullable
scalars; `Distinct` is the two-valued-safe inequality that treats NULL as a
value (§3 glossary), comparisons propagate NULL, and `plus` stands for the
non-comparison operators. -/
def evalBinary : BinaryOperator → Option Scalar → Option Scalar → Option Scalar
  | .distinct, a, b => some (.bool (a != b))
  | .plus, some (.int a), some (.int b) => some (.int (a + b))
  | .plus, _, _ => none
  | op, some a, some b =>
      match scalarCmp a b with
      | some o => some (.bool (cmpSat op o))
      | none => none
  | _, _, _ => none

/-- An environment assigning nullable scalar values to column paths: rows of
a file and parsed statistics records are both read this way. -/
def Env : Type := List String → Option Scalar

mutual
/-- Modelled from the spec: the three-valued evaluator executing an
expression against an environment (the external `ExpressionEvaluator`
capability of §6, with SQL NULL propagation per §9). -/
def evalV (env : Env) : Expr → Option Scalar
  | .column p => env p
  | .literal v => some v
  | .unaryOperation .not e =>
      match evalV env e with
      | some (.bool b) => some (.bool (!b))
      | _ => none
  | .unaryOperation .isNull e => some (.bool (evalV env e).isNone)
  | .binaryOperation op l r => evalBinary op (evalV env l) (evalV env r)
  | .variadicOperation .and es => ofTV (evalAndList env es)
  | .variadicOperation .or es => ofTV (evalOrList env es)

/-- Three-valued conjunction of the evaluations of a child list. -/
def evalAndList (env : Env) : List Expr → TV
  | [] => .t
  | e :: es => tvAnd (toTV (evalV env e)) (evalAndList env es)

/-- Three-valued disjunction of the evaluations of a child list. -/
def evalOrList (env : Env) : List Expr → TV
  | [] => .f
  | e :: es => tvOr (toTV (evalV env e)) (evalOrList env es)
end

/-- Truth value of an expression in an environment. -/
def evalB (env : Env) (e : Expr) : TV := toTV (evalV env e)

/-- `a` is at most `b` in the scalar ordering (same kind, comparable). -/
def scalarLe (a b : Scalar) : Bool :=
  match scalarCmp a b with
  | some .lt => true
  | some .eq => true
  | _ => false

/-- Modelled from the spec: a row is consistent with a statistics record when
every non-null column value lies between that column's recorded `minValues`
and `maxValues` entries (§8: "every row of the file has min ≤ v ≤ max"). -/
def rowConsistent (row stats : Env) : Prop :=
  ∀ p v, row p = some v →
    (∀ m, stats ("minValues" :: p) = some m → scalarLe m v = true) ∧
    (∀ M, stats ("maxValues" :: p) = some M → scalarLe v M = true)

/-- Statistics of the counterexample file: column `a` ranges over `[0, 10]`
with no nulls, one hundred records, tight bounds. -/
def exStats : Env := fun p =>
  if p = ["minValues", "a"] then some (.int 0)
  else if p = ["maxValues", "a"] then some (.int 10)
  else if p = ["numRecords"] then some (.int 100)
  else if p = ["nullCount", "a"] then some (.int 0)
  else if p = ["tightBounds"] then some (.bool true)
  else none

/-- A row of the counterexample file: `a = 0`. -/
def exRow : Env := fun p =>
  if p = ["a"] then some (.int 0) else none

/-- The counterexample predicate `a ≠ 5`. -/
def nePredicate : Expr :=
  .binaryOperation .notEqual (.column ["a"]) (.literal (.int 5))

/-- C1: the rewriter is not sound — for the predicate `a ≠ 5` and a file with
accurate statistics `min a = 0`, `max a = 10`, the row `a = 0` is consistent
with the statistics and satisfies the predicate, yet the rewritten predicate
`Or(minValues.a > 5, maxValues.a < 5)` evaluates to FALSE on the statistics
record, so the file is skipped even though it contains a matching row. -/
theorem claim_C1_ne_false_negative :
    rowConsistent exRow exStats ∧
    evalB exRow nePredicate = .t ∧
    (as_data_skipping_predicate nePredicate).map (evalB exStats) = some .f := by
  refine ⟨?_, ?_, ?_⟩
  · intro p v hv
    by_cases hp : p = ["a"]
    · subst hp
      simp [exRow] at hv
      subst hv
      constructor
      · intro m hm
        simp [exStats] at hm
        subst hm
        rfl
      · intro M hM
        simp [exStats] at hM
        subst hM
        rfl
    · simp [exRow, hp] at hv
  · simp [evalB, evalV, nePredicate, exRow, evalBinary, scalarCmp, cmpSat, toTV, compare,
      compareOfLessAndEq]
  · simp [nePredicate, as_data_skipping_predicate, data_skipping_col_lit, Expr.or, Expr.gt,
      Expr.lt, evalB, evalV, evalOrList, exStats, evalBinary, scalarCmp, cmpSat, toTV,
      ofTV, tvOr, compare, compareOfLessAndEq]

/-- Modelled from the spec: schema data types (§4.B): primitive leaves or
nested records of named, ordered, nullable fields. A field is a triple
`(name, type, nullable)`; the kernel's `StructField`/`StructType` are not
under `src/`. -/
inductive DataType where
  | primitive : PrimitiveType → DataType
  | structType : List (String × DataType × Bool) → DataType

/-- A schema field: `(name, data type, nullable)`. -/
abbrev StructField : Type := String × DataType × Bool

mutual
/-- From `data_skipping.rs`: `NullCountStatsTransform` — `transform_primitive`
replaces every leaf with `Long`; the structure-preserving traversal over
records is modelled from the spec (§4.B rule 3), the `SchemaTransform`
default walk being outside `src/`. -/
def nullCountTransform : DataType → DataType
  | .primitive _ => .primitive .long
  | .structType fs => .structType (nullCountTransformFields fs)

/-- Field-list part of `nullCountTransform`. -/
def nullCountTransformFields : List StructField → List StructField
  | [] => []
  | (n, t, b) :: fs => (n, nullCountTransform t, b) :: nullCountTransformFields fs
end

mutual
/-- Modelled from the spec: the free-variable extractor
`references(expr) → set of column paths` (§4.A). -/
def Expr.references : Expr → List (List String)
  | .column p => [p]
  | .literal _ => []
  | .unaryOperation _ e => Expr.references e
  | .binaryOperation _ l r => Expr.references l ++ Expr.references r
  | .variadicOperation _ es => referencesList es

/-- Union of the references of a child list. -/
def referencesList : List Expr → List (List String)
  | [] => []
  | e :: es => Expr.references e ++ referencesList es
end

/-- The data-skipping filter, retaining the pieces the engine-independent
claims speak about: the derived statistics schema and the rewritten skipping
predicate handed to the skipping evaluator. The three evaluators and the
JSON handler only package these expressions behind external capabilities. -/
structure DataSkippingFilter where
  stats_schema : List StructField
  skipping_predicate : Expr

/-- From `data_skipping.rs`: `DataSkippingFilter::new`. Absent predicate,
an empty eligible-field list, or an ineligible rewrite all yield `none`
(no filter); engine parameters are elided as they cannot fail. -/
def DataSkippingFilter.new (table_schema : List StructField)
    (predicate : Option Expr) : Option DataSkippingFilter :=
  match predicate with
  | none => none
  | some pred =>
    let field_names := Expr.references pred
    let data_fields := table_schema.filter (fun f => field_names.contains [f.1])
    if data_fields.isEmpty then none
    else
      let minmax_schema := data_fields
      let nullcount_schema := nullCountTransformFields minmax_schema
      let stats_schema :=
        [("numRecords", DataType.primitive .long, true),
         ("tightBounds", DataType.primitive .boolean, true),
         ("nullCount", DataType.structType nullcount_schema, true),
         ("minValues", DataType.structType minmax_schema, true),
         ("maxValues", DataType.structType minmax_schema, true)]
      match as_data_skipping_predicate pred with
      | none => none
      | some sp => some ⟨stats_schema, sp⟩

/-- Unfolding of `DataSkippingFilter.new` on a present predicate. -/
theorem new_some (ts : List StructField) (p : Expr) :
    DataSkippingFilter.new ts (some p)
      = (if (ts.filter (fun f => (Expr.references p).contains [f.1])).isEmpty then none
         else
           match as_data_skipping_predicate p with
           | none => none
           | some sp =>
               some ⟨[("numRecords", DataType.primitive .long, true),
                      ("tightBounds", DataType.primitive .boolean, true),
                      ("nullCount", DataType.structType
                        (nullCountTransformFields
                          (ts.filter (fun f => (Expr.references p).contains [f.1]))), true),
                      ("minValues", DataType.structType
                        (ts.filter (fun f => (Expr.references p).contains [f.1])), true),
                      ("maxValues", DataType.structType
                        (ts.filter (fun f => (Expr.references p).contains [f.1])), true)],
                     sp⟩) := rfl

/-- C8: the filter constructor returns `none` exactly when the predicate is
absent, or when no top-level table field's single-segment name occurs among
the predicate's referenced column paths, or when the rewrite of the predicate
returns `none`. -/
theorem claim_C8_new_none_iff :
    ∀ (table_schema : List StructField) (predicate : Option Expr),
      DataSkippingFilter.new table_schema predicate = none ↔
        (predicate = none ∨
          ∃ p, predicate = some p ∧
            ((∀ f ∈ table_schema, ¬ [f.1] ∈ Expr.references p) ∨
             as_data_skipping_predicate p = none)) := by
  intro ts pred
  cases pred with
  | none => simp [DataSkippingFilter.new]
  | some p =>
    rw [new_some]
    have hfilter :
        (ts.filter (fun f => (Expr.references p).contains [f.1])).isEmpty = true
          ↔ ∀ f ∈ ts, ¬ [f.1] ∈ Expr.references p := by
      rw [List.isEmpty_iff, List.filter_eq_nil_iff]
      constructor
      · intro h f hf hmem
        exact h f hf (by simpa using hmem)
      · intro h f hf hc
        exact h f hf (by simpa using hc)
    by_cases hemp : (ts.filter (fun f => (Expr.references p).contains [f.1])).isEmpty
    · rw [if_pos hemp]
      exact iff_of_true rfl (Or.inr ⟨p, rfl, Or.inl (hfilter.mp hemp)⟩)
    · rw [if_neg hemp]
      cases hadsp : as_data_skipping_predicate p with
      | none =>
        exact iff_of_true rfl (Or.inr ⟨p, rfl, Or.inr hadsp⟩)
      | some sp =>
        refine iff_of_false (by simp) ?_
        intro h
        rcases h with h | ⟨q, hq, h⟩
        · cases h
        · cases hq
          rcases h with h | h
          · exact absurd (hfilter.mpr h) hemp
          · rw [h] at hadsp
            cases hadsp

mutual
/-- The transform preserves the record structure: names, nullability and
branch shape are unchanged. -/
def sameShape : DataType → DataType → Bool
  | .primitive _, .primitive _ => true
  | .structType fs, .structType gs => sameShapeFields fs gs
  | _, _ => false

/-- Field-list part of `sameShape`. -/
def sameShapeFields : List StructField → List StructField → Bool
  | [], [] => true
  | (n, t, b) :: fs, (n', t', b') :: gs =>
      decide (n = n') && decide (b = b') && sameShape t t' && sameShapeFields fs gs
  | _, _ => false
end

mutual
/-- Every leaf primitive of the type is `Long`. -/
def allLeavesLong : DataType → Bool
  | .primitive p => decide (p = .long)
  | .structType fs => allLeavesLongFields fs

/-- Field-list part of `allLeavesLong`. -/
def allLeavesLongFields : List StructField → Bool
  | [] => true
  | (_, t, _) :: fs => allLeavesLong t && allLeavesLongFields fs
end

mutual
theorem sameShape_transform : ∀ t : DataType, sameShape t (nullCountTransform t) = true
  | .primitive _ => rfl
  | .structType fs => by
      simp [nullCountTransform, sameShape, sameShapeFields_transform fs]

theorem sameShapeFields_transform :
    ∀ fs : List StructField, sameShapeFields fs (nullCountTransformFields fs) = true
  | [] => rfl
  | (n, t, b) :: fs => by
      simp [nullCountTransformFields, sameShapeFields, sameShape_transform t,
        sameShapeFields_transform fs]
end

mutual
theorem allLeavesLong_transform :
    ∀ t : DataType, allLeavesLong (nullCountTransform t) = true
  | .primitive _ => rfl
  | .structType fs => by
      simp [nullCountTransform, allLeavesLong, allLeavesLongFields_transform fs]

theorem allLeavesLongFields_transform :
    ∀ fs : List StructField, allLeavesLongFields (nullCountTransformFields fs) = true
  | [] => rfl
  | (n, t, b) :: fs => by
      simp [nullCountTransformFields, allLeavesLongFields, allLeavesLong_transform t,
        allLeavesLongFields_transform fs]
end

/-- C9: a successfully constructed filter's statistics schema is the record
`numRecords (Long), tightBounds (Boolean), nullCount, minValues, maxValues`
in that exact order, where `minValues` and `maxValues` share the minmax
sub-schema of eligible fields and `nullCount` is its structure-preserving
all-leaves-`Long` transform. -/
theorem claim_C9_stats_schema :
    ∀ (ts : List StructField) (p : Expr) (fl : DataSkippingFilter),
      DataSkippingFilter.new ts (some p) = some fl →
      fl.stats_schema
          = [("numRecords", DataType.primitive .long, true),
             ("tightBounds", DataType.primitive .boolean, true),
             ("nullCount", DataType.structType
               (nullCountTransformFields
                 (ts.filter (fun f => (Expr.references p).contains [f.1]))), true),
             ("minValues", DataType.structType
               (ts.filter (fun f => (Expr.references p).contains [f.1])), true),
             ("maxValues", DataType.structType
               (ts.filter (fun f => (Expr.references p).contains [f.1])), true)] ∧
      sameShape
          (DataType.structType (ts.filter (fun f => (Expr.references p).contains [f.1])))
          (DataType.structType
            (nullCountTransformFields
              (ts.filter (fun f => (Expr.references p).contains [f.1])))) = true ∧
      allLeavesLong
          (DataType.structType
            (nullCountTransformFields
              (ts.filter (fun f => (Expr.references p).contains [f.1])))) = true := by
  intro ts p fl h
  rw [new_some] at h
  by_cases hemp : (ts.filter (fun f => (Expr.references p).contains [f.1])).isEmpty
  · rw [if_pos hemp] at h
    cases h
  · rw [if_neg hemp] at h
    cases hadsp : as_data_skipping_predicate p with
    | none =>
      rw [hadsp] at h
      cases h
    | some sp =>
      rw [hadsp] at h
      cases h
      refine ⟨rfl, ?_, ?_⟩
      · simp [sameShape, sameShapeFields_transform]
      · simp [allLeavesLong, allLeavesLongFields_transform]

/-- Table schema of the C9 witness: two integer-like top-level fields. -/
def exTableSchema : List StructField :=
  [("a", DataType.primitive .integer, true), ("b", DataType.primitive .double, true)]

/-- Predicate of the C9 witness: `a < 1`, referencing only field `a`. -/
def exPredicateC9 : Expr := .binaryOperation .lessThan (.column ["a"]) (.literal (.int 1))

/-- The filter `DataSkippingFilter.new` builds for the C9 witness inputs. -/
def exFilterC9 : DataSkippingFilter :=
  ⟨[("numRecords", DataType.primitive .long, true),
    ("tightBounds", DataType.primitive .boolean, true),
    ("nullCount", DataType.structType [("a", DataType.primitive .long, true)], true),
    ("minValues", DataType.structType [("a", DataType.primitive .integer, true)], true),
    ("maxValues", DataType.structType [("a", DataType.primitive .integer, true)], true)],
   .binaryOperation .lessThan (.column ["minValues", "a"]) (.literal (.int 1))⟩

theorem claim_C9_witness :
    exFilterC9.stats_schema
        = [("numRecords", DataType.primitive .long, true),
           ("tightBounds", DataType.primitive .boolean, true),
           ("nullCount", DataType.structType
             (nullCountTransformFields
               (exTableSchema.filter
                 (fun f => (Expr.references exPredicateC9).contains [f.1]))), true),
           ("minValues", DataType.structType
             (exTableSchema.filter
               (fun f => (Expr.references exPredicateC9).contains [f.1])), true),
           ("maxValues", DataType.structType
             (exTableSchema.filter
               (fun f => (Expr.references exPredicateC9).contains [f.1])), true)] ∧
    sameShape
        (DataType.structType
          (exTableSchema.filter (fun f => (Expr.references exPredicateC9).contains [f.1])))
        (DataType.structType
          (nullCountTransformFields
            (exTableSchema.filter
              (fun f => (Expr.references exPredicateC9).contains [f.1])))) = true ∧
    allLeavesLong
        (DataType.structType
          (nullCountTransformFields
            (exTableSchema.filter
              (fun f => (Expr.references exPredicateC9).contains [f.1])))) = true :=
  claim_C9_stats_schema exTableSchema exPredicateC9 exFilterC9
    (by simp [DataSkippingFilter.new, exTableSchema, exPredicateC9, exFilterC9,
      Expr.references, nullCountTransformFields, nullCountTransform,
      as_data_skipping_predicate, data_skipping_col_lit, List.filter])

mutual
/-- Fuel-indexed transcription of `data_skipping_col_lit`: the outer `none`
means the step budget ran out, `some r` that the original call graph reached
result `r` within the budget. -/
def data_skipping_col_lit_fuel :
    Nat → BinaryOperator → List String → Scalar → Option (Option Expr)
  | 0, _, _, _ => none
  | n + 1, op, col, val =>
    match op with
    | .lessThan =>
        some (some (.binaryOperation .lessThan (.column ("minValues" :: col)) (.literal val)))
    | .lessThanOrEqual =>
        some (some (.binaryOperation .lessThanOrEqual (.column ("minValues" :: col))
          (.literal val)))
    | .greaterThan =>
        some (some (.binaryOperation .greaterThan (.column ("maxValues" :: col)) (.literal val)))
    | .greaterThanOrEqual =>
        some (some (.binaryOperation .greaterThanOrEqual (.column ("maxValues" :: col))
          (.literal val)))
    | .equal =>
        as_data_skipping_predicate_fuel n
          (Expr.and (Expr.le (.column col) (.literal val))
            (Expr.le (.literal val) (.column col)))
    | .notEqual =>
        some (some (Expr.or (Expr.gt (.column ("minValues" :: col)) (.literal val))
          (Expr.lt (.column ("maxValues" :: col)) (.literal val))))
    | _ => some none
termination_by n _ _ _ => (n, 0)

/-- Fuel-indexed transcription of `as_inverted_data_skipping_predicate`. -/
def as_inverted_data_skipping_predicate_fuel : Nat → Expr → Option (Option Expr)
  | 0, _ => none
  | n + 1, e =>
    match e with
    | .unaryOperation .not e' => as_data_skipping_predicate_fuel n e'
    | .unaryOperation .isNull e' =>
        match e' with
        | .column col =>
            some (some (Expr.or (get_tight_not_null_expr (.column ("nullCount" :: col)))
              (get_wide_not_null_expr (.column ("nullCount" :: col)))))
        | _ => some none
    | .binaryOperation op l r =>
        match op.invert with
        | some op2 => as_data_skipping_predicate_fuel n (.binaryOperation op2 l r)
        | none => some none
    | .variadicOperation op es =>
        as_data_skipping_predicate_fuel n (.variadicOperation op.invert (es.map Expr.not))
    | _ => some none
termination_by n _ => (n, 0)

/-- Fuel-indexed transcription of `as_data_skipping_predicate`. -/
def as_data_skipping_predicate_fuel : Nat → Expr → Option (Option Expr)
  | 0, _ => none
  | n + 1, e =>
    match e with
    | .binaryOperation op left right =>
        match left, right with
        | .column col, .literal val => data_skipping_col_lit_fuel n op col val
        | .literal val, .column col =>
            match op.commute with
            | some op2 => data_skipping_col_lit_fuel n op2 col val
            | none => some none
        | _, _ => some none
    | .unaryOperation .not e' => as_inverted_data_skipping_predicate_fuel n e'
    | .unaryOperation .isNull e' =>
        match e' with
        | .column col =>
            some (some (Expr.or (get_tight_null_expr (.column ("nullCount" :: col)))
              (get_wide_null_expr (.column ("nullCount" :: col)))))
        | _ => some none
    | .variadicOperation vop es =>
        match as_data_skipping_predicate_fuel_list n es with
        | none => none
        | some rs =>
            match vop with
            | .and => some (some (Expr.and_from rs.reduceOption))
            | .or => some ((optionAll rs).map Expr.or_from)
    | _ => some none
termination_by n _ => (n, 0)

/-- Elementwise fuel-indexed rewrite of a child list. -/
def as_data_skipping_predicate_fuel_list : Nat → List Expr → Option (List (Option Expr))
  | _, [] => some []
  | n, e :: es =>
    match as_data_skipping_predicate_fuel n e, as_data_skipping_predicate_fuel_list n es with
    | some r, some rs => some (r :: rs)
    | _, _ => none
termination_by n es => (n, es.length + 1)
end

theorem skSize_pos : ∀ e : Expr, 1 ≤ skSize e := by
  intro e
  cases e with
  | column p => simp [skSize]
  | literal v => simp [skSize]
  | unaryOperation u e' => cases u <;> simp [skSize]
  | binaryOperation op l r => simp [skSize]; omega
  | variadicOperation vo es => simp [skSize]

theorem skSizeInv_pos : ∀ e : Expr, 1 ≤ skSizeInv e := by
  intro e
  cases e with
  | column p => simp [skSizeInv]
  | literal v => simp [skSizeInv]
  | unaryOperation u e' => cases u <;> simp [skSizeInv]
  | binaryOperation op l r => simp [skSizeInv]; omega
  | variadicOperation vo es => simp [skSizeInv]; omega

theorem fuel_list_adequate (n : Nat)
    (hf : ∀ e, skSize e ≤ n →
      as_data_skipping_predicate_fuel n e = some (as_data_skipping_predicate e)) :
    ∀ es : List Expr, (∀ e ∈ es, skSize e ≤ n) →
      as_data_skipping_predicate_fuel_list n es
        = some (es.map as_data_skipping_predicate) := by
  intro es h
  induction es with
  | nil => simp [as_data_skipping_predicate_fuel_list]
  | cons e es' ih =>
    have h1 := hf e (h e (List.mem_cons_self e es'))
    have h2 := ih (fun x hx => h x (List.mem_cons_of_mem e hx))
    simp [as_data_skipping_predicate_fuel_list, h1, h2]

theorem fuel_adequate : ∀ n : Nat,
    (∀ (op : BinaryOperator) (col : List String) (val : Scalar), opW op + 2 ≤ n →
      data_skipping_col_lit_fuel n op col val = some (data_skipping_col_lit op col val)) ∧
    (∀ e : Expr, skSizeInv e ≤ n →
      as_inverted_data_skipping_predicate_fuel n e
        = some (as_inverted_data_skipping_predicate e)) ∧
    (∀ e : Expr, skSize e ≤ n →
      as_data_skipping_predicate_fuel n e = some (as_data_skipping_predicate e)) := by
  intro n
  induction n with
  | zero =>
    refine ⟨fun op col val h => ?_, fun e h => ?_, fun e h => ?_⟩
    · exact absurd h (by cases op <;> simp [opW])
    · exact absurd h (by have := skSizeInv_pos e; omega)
    · exact absurd h (by have := skSize_pos e; omega)
  | succ n ih =>
    obtain ⟨ihc, ihi, iha⟩ := ih
    refine ⟨fun op col val h => ?_, fun e h => ?_, fun e h => ?_⟩
    · cases op <;>
        simp only [data_skipping_col_lit_fuel, data_skipping_col_lit]
      exact iha _ (by simp [opW] at h; simp [Expr.and, Expr.le, skSize, skSizeList, opW]; omega)
    · cases e with
      | column p => simp [as_inverted_data_skipping_predicate_fuel,
          as_inverted_data_skipping_predicate]
      | literal v => simp [as_inverted_data_skipping_predicate_fuel,
          as_inverted_data_skipping_predicate]
      | unaryOperation u e' =>
        cases u with
        | not =>
          have hb : skSize e' ≤ n := by
            simp [skSizeInv] at h; omega
          simp only [as_inverted_data_skipping_predicate_fuel,
            as_inverted_data_skipping_predicate]
          exact iha e' hb
        | isNull =>
          cases e' <;> simp [as_inverted_data_skipping_predicate_fuel,
            as_inverted_data_skipping_predicate]
      | binaryOperation op l r =>
        simp only [as_inverted_data_skipping_predicate_fuel,
          as_inverted_data_skipping_predicate]
        cases hinv : op.invert with
        | none => simp
        | some op2 =>
          simp only []
          have hw := invert_opW hinv
          exact iha _ (by simp [skSizeInv] at h; simp [skSize]; omega)
      | variadicOperation vo es =>
        simp only [as_inverted_data_skipping_predicate_fuel,
          as_inverted_data_skipping_predicate]
        exact iha _ (by
          simp [skSizeInv] at h
          simp [skSize, skSizeList_map_not]
          omega)
    · cases e with
      | column p => simp [as_data_skipping_predicate_fuel, as_data_skipping_predicate]
      | literal v => simp [as_data_skipping_predicate_fuel, as_data_skipping_predicate]
      | unaryOperation u e' =>
        cases u with
        | not =>
          have hb : skSizeInv e' ≤ n := by
            simp [skSize] at h; omega
          simp only [as_data_skipping_predicate_fuel, as_data_skipping_predicate]
          exact ihi e' hb
        | isNull =>
          cases e' <;> simp [as_data_skipping_predicate_fuel, as_data_skipping_predicate]
      | binaryOperation op l r =>
        cases l with
        | column col =>
          cases r with
          | literal val =>
            simp only [as_data_skipping_predicate_fuel, as_data_skipping_predicate]
            exact ihc op col val (by simp [skSize] at h; omega)
          | column c' => simp [as_data_skipping_predicate_fuel, as_data_skipping_predicate]
          | unaryOperation u e'' => simp [as_data_skipping_predicate_fuel,
              as_data_skipping_predicate]
          | binaryOperation b x y => simp [as_data_skipping_predicate_fuel,
              as_data_skipping_predicate]
          | variadicOperation v w => simp [as_data_skipping_predicate_fuel,
              as_data_skipping_predicate]
        | literal val =>
          cases r with
          | column col =>
            simp only [as_data_skipping_predicate_fuel, as_data_skipping_predicate]
            cases hcom : op.commute with
            | none => simp
            | some op2 =>
              simp only []
              have hw := commute_opW hcom
              exact ihc op2 col val (by simp [skSize] at h; omega)
          | literal v' => simp [as_data_skipping_predicate_fuel, as_data_skipping_predicate]
          | unaryOperation u e'' => simp [as_data_skipping_predicate_fuel,
              as_data_skipping_predicate]
          | binaryOperation b x y => simp [as_data_skipping_predicate_fuel,
              as_data_skipping_predicate]
          | variadicOperation v w => simp [as_data_skipping_predicate_fuel,
              as_data_skipping_predicate]
        | unaryOperation u e'' => simp [as_data_skipping_predicate_fuel,
            as_data_skipping_predicate]
        | binaryOperation b x y => simp [as_data_skipping_predicate_fuel,
            as_data_skipping_predicate]
        | variadicOperation v w => simp [as_data_skipping_predicate_fuel,
            as_data_skipping_predicate]
      | variadicOperation vo es =>
        have hach : ∀ x ∈ es, skSize x ≤ n := by
          intro x hx
          have := mem_le_skSizeList hx
          simp [skSize] at h
          omega
        have hl := fuel_list_adequate n iha es hach
        simp only [as_data_skipping_predicate_fuel, hl]
        cases vo with
        | and => simp [adsp_and, Expr.and_from]
        | or => simp [adsp_or, Expr.or_from]

/-- C10: the mutual recursion of `as_data_skipping_predicate` and
`as_inverted_data_skipping_predicate` terminates on every finite expression
tree: the step-indexed transcription of the source's call graph, which burns
one unit of fuel per call, reaches the rewriter's result whenever the fuel is
at least the measure `skSize`/`skSizeInv` of the input, despite the `Eq` and
inversion cases recursing on freshly built, larger terms. -/
theorem claim_C10_termination :
    (∀ (e : Expr) (n : Nat), skSize e ≤ n →
      as_data_skipping_predicate_fuel n e = some (as_data_skipping_predicate e)) ∧
    (∀ (e : Expr) (n : Nat), skSizeInv e ≤ n →
      as_inverted_data_skipping_predicate_fuel n e
        = some (as_inverted_data_skipping_predicate e)) :=
  ⟨fun e n h => (fuel_adequate n).2.2 e h, fun e n h => (fuel_adequate n).2.1 e h⟩

theorem claim_C10_witness :
    as_data_skipping_predicate_fuel 9
        (.unaryOperation .not (.unaryOperation .not
          (.binaryOperation .lessThan (.column ["a"]) (.literal (.int 1)))))
      = some (as_data_skipping_predicate
          (.unaryOperation .not (.unaryOperation .not
            (.binaryOperation .lessThan (.column ["a"]) (.literal (.int 1)))))) :=
  claim_C10_termination.1 _ 9 (by simp [skSize, skSizeInv, opW])

end DataSkipping
